import Mathlib

/-!
Shallow embedding of the SAGradingCLI terminal dashboard (src/main.rs).

The program is a single-threaded event loop over a flat JSON file of
group records.  We embed, faithfully to the source:

* the `Group` record and the serde-derived JSON encoding/decoding
  (`encodeGroup` / `decodeGroup`), together with the on-disk file model
  (`FileData`) and the store operations `read_db`, `write_db`,
  `add_random_group_to_db`, `remove_group_at_index`;
* the controller state (`AppState`: active tab, list selection, file)
  and the event-loop body `step` (the `match rx.recv()` in `main`),
  including every `.expect` panic path and the debug-mode integer
  underflow of `amount_groups - 1` when the store is empty;
* the per-iteration draw (`renderOk`, from `render_groups`, which
  panics when the Groups tab is drawn with an unreadable store, no
  selection, or an out-of-range selection) and the loop itself (`run`).

Randomness (`rand::thread_rng`, `gen_range(0, 10)`) is embedded by
passing the raw draws as oracle inputs on the `a` key event; the
generated record is `mkRandomGroup`.
-/

namespace SAGrading

/-- The fragment of JSON values that the record schema uses
(serde_json values for this program: strings, unsigned integers,
arrays, objects).  A file whose contents fall outside well-formed JSON
is modelled by `FileData.notJson` below. -/
inductive Json where
  | str (s : String)
  | num (n : Nat)
  | arr (elems : List Json)
  | obj (fields : List (String × Json))

/-- `struct Group` (main.rs lines 39-45): name, assignment, feedback, footnote. -/
structure Group where
  name : String
  assignment : Nat
  feedback : List String
  footnote : String
deriving DecidableEq

/-- `enum Error` (main.rs lines 26-32): exactly two variants,
`ReadDBError` (io error) and `ParseDBError` (serde_json error). -/
inductive Err where
  | ReadDBError
  | ParseDBError
deriving DecidableEq

/-- `enum MenuItem` (main.rs lines 47-52). -/
inductive MenuItem where
  | Home
  | Groups
  | Editing
deriving DecidableEq

/-- Key events that the `match event.code` in `main` distinguishes.
The `a` key carries the two random draws made by
`add_random_group_to_db` (name digit and assignment), since the rng is
an input oracle of the embedding.  `otherK` stands for every key that
falls into the `_ => {}` arm. -/
inductive Key where
  | qK
  | hK
  | gK
  | eK
  | aK (r1 r2 : Nat)
  | dK
  | downK
  | upK
  | otherK
deriving DecidableEq

/-- `enum Event<I>` (main.rs lines 34-37): keyboard input or tick. -/
inductive Event where
  | input (k : Key)
  | tick
deriving DecidableEq

/-- serde `Serialize` derived for `Group`: an object with the fields in
declaration order. -/
def encodeGroup (g : Group) : Json :=
  .obj [("name", .str g.name),
        ("assignment", .num g.assignment),
        ("feedback", .arr (g.feedback.map .str)),
        ("footnote", .str g.footnote)]

/-- `serde_json::to_vec(&parsed)`: the whole store is one JSON array. -/
def encodeGroups (gs : List Group) : Json :=
  .arr (gs.map encodeGroup)

/-- Decode every element of a JSON sequence, failing if any element
fails (serde's seq visitor). -/
def decodeList (f : Json → Option α) : List Json → Option (List α)
  | [] => some []
  | j :: js =>
    match f j with
    | none => none
    | some a =>
      match decodeList f js with
      | none => none
      | some as => some (a :: as)

/-- serde: a JSON string where a Rust `String` is expected. -/
def asStr : Json → Option String
  | .str s => some s
  | _ => none

/-- serde: a JSON unsigned integer where a `usize` is expected. -/
def asNat : Json → Option Nat
  | .num n => some n
  | _ => none

/-- Look up a field of a JSON object by name (order-independent, as the
derived `Deserialize` is). -/
def getField (fields : List (String × Json)) (key : String) : Option Json :=
  match fields with
  | [] => none
  | (k, v) :: rest => if k = key then some v else getField rest key

/-- serde `Deserialize` derived for `Group`: requires an object with
all four fields present and of the right types. -/
def decodeGroup (j : Json) : Option Group :=
  match j with
  | .obj fields =>
    match getField fields "name", getField fields "assignment",
          getField fields "feedback", getField fields "footnote" with
    | some jn, some ja, some jf, some jfoot =>
      match asStr jn, asNat ja, jf, asStr jfoot with
      | some n, some a, .arr fb, some foot =>
        match decodeList asStr fb with
        | some fbs => some ⟨n, a, fbs, foot⟩
        | none => none
      | _, _, _, _ => none
    | _, _, _, _ => none
  | _ => none

/-- `serde_json::from_str::<Vec<Group>>`: the file must be one JSON array
of records. -/
def decodeGroups (j : Json) : Option (List Group) :=
  match j with
  | .arr js => decodeList decodeGroup js
  | _ => none

/-- The contents of the DB file: unreadable (io error), readable but
not a well-formed JSON value, or a JSON value. -/
inductive FileData where
  | unreadable
  | notJson
  | stored (j : Json)

/-- `read_db` (main.rs lines 341-345): read the file (io failure gives
`ReadDBError`), parse it as a `Vec<Group>` (failure gives `ParseDBError`). -/
def read_db : FileData → Except Err (List Group)
  | .unreadable => .error .ReadDBError
  | .notJson => .error .ParseDBError
  | .stored j =>
    match decodeGroups j with
    | some gs => .ok gs
    | none => .error .ParseDBError

/-- `fs::write(DB_PATH, &serde_json::to_vec(&parsed)?)`: the file now
holds the serialization of `gs`. -/
def write_db (gs : List Group) : FileData :=
  .stored (encodeGroups gs)

/-- The record built in `add_random_group_to_db` (main.rs lines 352-360):
`rng.gen_range(0, 10)` is embedded as `r % 10` of an oracle draw `r`. -/
def mkRandomGroup (r1 r2 : Nat) : Group :=
  { name := "Group " ++ toString (r1 % 10)
    assignment := r2 % 10
    feedback := ["feedback"]
    footnote := "This assignment was graded by: Tom Koning. E-mail: tom.koning@ru.nl." }

/-- `add_random_group_to_db` (main.rs lines 347-365): load the file,
push one generated record, save, return the new sequence (paired here
with the new file contents). -/
def add_random_group_to_db (f : FileData) (r1 r2 : Nat) :
    Except Err (List Group × FileData) :=
  match read_db f with
  | .error e => .error e
  | .ok parsed =>
    let parsed2 := parsed ++ [mkRandomGroup r1 r2]
    .ok (parsed2, write_db parsed2)

/-- Outcome of `remove_group_at_index`: `Ok(())` with the resulting
file and selection, an `Err` return, or a Rust panic
(`Vec::remove` with an out-of-bounds index). -/
inductive RemoveResult where
  | ok (f : FileData) (sel : Option Nat)
  | fail (e : Err)
  | panicked

/-- `remove_group_at_index` (main.rs lines 367-380): if a row is
selected, load the file; unless it has exactly one record, remove the
selected index (`Vec::remove` panics when the index is out of bounds),
save, and move the selection to `selected - 1` when `selected != 0`. -/
def remove_group_at_index (sel : Option Nat) (f : FileData) : RemoveResult :=
  match sel with
  | none => .ok f none
  | some selected =>
    match read_db f with
    | .error e => .fail e
    | .ok parsed =>
      if parsed.length = 1 then
        .ok f (some selected)
      else if selected < parsed.length then
        .ok (write_db (parsed.eraseIdx selected))
          (if selected ≠ 0 then some (selected - 1) else some selected)
      else
        .panicked

/-- Controller state: `active_menu_item`, `group_list_state.selected()`,
and the DB file. -/
structure AppState where
  tab : MenuItem
  sel : Option Nat
  file : FileData

/-- One iteration of the event loop either continues with a new state,
breaks out (`q`), or panics (an `.expect` on a store failure, or an
arithmetic underflow in a debug build). -/
inductive StepResult where
  | next (s : AppState)
  | quit (s : AppState)
  | panicked

/-- The `match rx.recv()` body of `main` (main.rs lines 194-234),
translated arm by arm.  Note that the `d`, `Down` and `Up` arms test
only whether a selection exists — the active tab is never consulted.
In the `Down` arm `amount_groups - 1` is evaluated unconditionally, so
an empty store underflows (a panic in a debug build); in the `Up` arm
it is evaluated only in the `selected = 0` branch. -/
def step (e : Event) (s : AppState) : StepResult :=
  match e with
  | .tick => .next s
  | .input k =>
    match k with
    | .qK => .quit s
    | .hK => .next { s with tab := .Home }
    | .gK => .next { s with tab := .Groups }
    | .eK => .next { s with tab := .Editing }
    | .otherK => .next s
    | .aK r1 r2 =>
      match add_random_group_to_db s.file r1 r2 with
      | .error _ => .panicked
      | .ok (_, f2) => .next { s with file := f2 }
    | .dK =>
      match remove_group_at_index s.sel s.file with
      | .ok f2 sel2 => .next { s with file := f2, sel := sel2 }
      | .fail _ => .panicked
      | .panicked => .panicked
    | .downK =>
      match s.sel with
      | none => .next s
      | some selected =>
        match read_db s.file with
        | .error _ => .panicked
        | .ok gs =>
          if gs.length = 0 then .panicked
          else if selected ≥ gs.length - 1 then .next { s with sel := some 0 }
          else .next { s with sel := some (selected + 1) }
    | .upK =>
      match s.sel with
      | none => .next s
      | some selected =>
        match read_db s.file with
        | .error _ => .panicked
        | .ok gs =>
          if selected > 0 then .next { s with sel := some (selected - 1) }
          else if gs.length = 0 then .panicked
          else .next { s with sel := some (gs.length - 1) }

/-- Whether `terminal.draw` succeeds on state `s`.  Drawing the Groups
tab (`render_groups`, main.rs lines 272-339) calls
`read_db().expect(..)`, `.selected().expect(..)` and
`.get(selected).expect(..)`, so it panics when the store fails to load,
no row is selected, or the selection is out of range.  The other tabs
draw static content. -/
def renderOk (s : AppState) : Bool :=
  match s.tab with
  | .Groups =>
    match read_db s.file with
    | .error _ => false
    | .ok gs =>
      match s.sel with
      | none => false
      | some i => decide (i < gs.length)
  | _ => true

/-- Result of running the loop on a finite event sequence: still alive
and blocked on the next event, exited via `q`, or panicked. -/
inductive RunResult where
  | running (s : AppState)
  | quitted (s : AppState)
  | panicked

/-- The main loop (main.rs lines 125-235): each iteration draws the
current state, then blocks for one event and processes it. -/
def run : AppState → List Event → RunResult
  | s, [] => if renderOk s then .running s else .panicked
  | s, e :: es =>
    if renderOk s then
      match step e s with
      | .next s2 => run s2 es
      | .quit s2 => .quitted s2
      | .panicked => .panicked
    else .panicked

/-- The state `main` enters the loop with (main.rs lines 121-123):
Home tab, selection `Some(0)`, whatever file is on disk.  The loop is
entered unconditionally — `main` performs no load before it. -/
def initState (f : FileData) : AppState :=
  ⟨.Home, some 0, f⟩

/-- Erase the tick events from an event sequence. -/
def dropTicks (es : List Event) : List Event :=
  es.filter fun e =>
    match e with
    | .tick => false
    | .input _ => true

/-- Modelled from the spec: the navigation arithmetic as §4.2 states it
— `Down` maps `i` to `(i+1) mod L`, `Up` maps `i` to `(i-1+L) mod L`
(written `(i + L - 1) % L`, identical on naturals), other keys leave
`i` alone.  Compared against `step` in the selection-bounds theorem. -/
def navStepSpec (L i : Nat) : Key → Nat
  | .downK => (i + 1) % L
  | .upK => (i + L - 1) % L
  | _ => i

/-- Events that touch neither the store nor the selection and do not
quit: tab switches to Home/Editing, unhandled keys, ticks. -/
def benign : Event → Bool
  | .input .hK => true
  | .input .eK => true
  | .input .otherK => true
  | .tick => true
  | _ => false

/-- Is the loop still alive with the file still the unparseable one? -/
def runningNotJson : RunResult → Bool
  | .running ⟨_, _, .notJson⟩ => true
  | _ => false

/-- Replace the tab of a step outcome's state. -/
def retab (t : MenuItem) : StepResult → StepResult
  | .next s => .next { s with tab := t }
  | .quit s => .quit { s with tab := t }
  | .panicked => .panicked

/-- A concrete record used in witnesses and counterexamples. -/
def gA : Group :=
  ⟨"Group 1", 3, ["feedback"], "fn"⟩

/-- A second concrete record used in witnesses and counterexamples. -/
def gB : Group :=
  ⟨"Group 2", 5, ["good", "work"], "fn2"⟩

/-! ### Helper lemmas -/

/-- Decoding a list of encoded strings recovers the list. -/
theorem decodeList_map_str (l : List String) :
    decodeList asStr (l.map Json.str) = some l := by
  induction l with
  | nil => rfl
  | cons a l ih => simp [decodeList, asStr, ih]

/-- Decoding an encoded record recovers the record. -/
theorem decodeGroup_encodeGroup (g : Group) :
    decodeGroup (encodeGroup g) = some g := by
  simp [decodeGroup, encodeGroup, getField, asStr, asNat, decodeList_map_str]

/-- Decoding a list of encoded records recovers the list. -/
theorem decodeList_map_encodeGroup (gs : List Group) :
    decodeList decodeGroup (gs.map encodeGroup) = some gs := by
  induction gs with
  | nil => rfl
  | cons g gs ih => simp [decodeList, decodeGroup_encodeGroup, ih]

/-- Loading the file right after saving `gs` yields `gs`. -/
theorem read_db_write_db (gs : List Group) :
    read_db (write_db gs) = .ok gs := by
  simp [read_db, write_db, encodeGroups, decodeGroups, decodeList_map_encodeGroup]

/-- Drawing succeeds whenever the store loads and the selection is in
range, whatever the tab. -/
theorem renderOk_of_inbounds {f : FileData} {gs : List Group} {i : Nat}
    (t : MenuItem) (h : read_db f = .ok gs) (hi : i < gs.length) :
    renderOk ⟨t, some i, f⟩ = true := by
  cases t <;> simp [renderOk, h, hi]

/-- Drawing succeeds on any tab other than Groups. -/
theorem renderOk_nonGroups {s : AppState} (h : s.tab ≠ .Groups) :
    renderOk s = true := by
  obtain ⟨t, sel, f⟩ := s
  cases t <;> simp_all [renderOk]

/-- The `Down` arm: with the store loadable and the selection in range,
the selection becomes `(i+1) mod L`. -/
theorem step_down {f : FileData} {gs : List Group} {i : Nat} (t : MenuItem)
    (h : read_db f = .ok gs) (hi : i < gs.length) :
    step (.input .downK) ⟨t, some i, f⟩ =
      .next ⟨t, some ((i + 1) % gs.length), f⟩ := by
  have hL : gs.length ≠ 0 := by omega
  simp only [step, h]
  rw [if_neg hL]
  by_cases h2 : i ≥ gs.length - 1
  · rw [if_pos h2]
    have h3 : (i + 1) % gs.length = 0 := by
      have : i + 1 = gs.length := by omega
      rw [this, Nat.mod_self]
    rw [h3]
  · rw [if_neg h2]
    have h3 : (i + 1) % gs.length = i + 1 := Nat.mod_eq_of_lt (by omega)
    rw [h3]

/-- The `Up` arm: with the store loadable and the selection in range,
the selection becomes `(i + L - 1) mod L`. -/
theorem step_up {f : FileData} {gs : List Group} {i : Nat} (t : MenuItem)
    (h : read_db f = .ok gs) (hi : i < gs.length) :
    step (.input .upK) ⟨t, some i, f⟩ =
      .next ⟨t, some ((i + gs.length - 1) % gs.length), f⟩ := by
  have hL : gs.length ≠ 0 := by omega
  simp only [step, h]
  by_cases h2 : i > 0
  · rw [if_pos h2]
    have h3 : (i + gs.length - 1) % gs.length = i - 1 := by
      have h4 : i + gs.length - 1 = (i - 1) + gs.length := by omega
      rw [h4, Nat.add_mod_right]
      exact Nat.mod_eq_of_lt (by omega)
    rw [h3]
  · rw [if_neg h2, if_neg hL]
    have h3 : (i + gs.length - 1) % gs.length = gs.length - 1 := by
      have h4 : i + gs.length - 1 = gs.length - 1 := by omega
      rw [h4]
      exact Nat.mod_eq_of_lt (by omega)
    rw [h3]

/-- A navigation key moves the selection exactly as the spec's modular
arithmetic says, stays in range, and leaves tab and file alone. -/
theorem nav_step {f : FileData} {gs : List Group} {i : Nat} (t : MenuItem)
    (h : read_db f = .ok gs) (hi : i < gs.length)
    {k : Key} (hk : k = Key.downK ∨ k = Key.upK) :
    step (.input k) ⟨t, some i, f⟩ =
        .next ⟨t, some (navStepSpec gs.length i k), f⟩ ∧
      navStepSpec gs.length i k < gs.length := by
  have hL : 0 < gs.length := by omega
  rcases hk with rfl | rfl
  · exact ⟨step_down t h hi, by simpa [navStepSpec] using Nat.mod_lt _ hL⟩
  · exact ⟨step_up t h hi, by simpa [navStepSpec] using Nat.mod_lt _ hL⟩

/-- Running any sequence of navigation keys from an in-range selection
keeps the loop alive, leaves the file alone, and drives the selection
by the spec's modular arithmetic, staying in range. -/
theorem run_nav {f : FileData} {gs : List Group} (h : read_db f = .ok gs) :
    ∀ (ks : List Key) (i : Nat), i < gs.length →
      (∀ k ∈ ks, k = Key.downK ∨ k = Key.upK) →
      run ⟨.Groups, some i, f⟩ (ks.map .input) =
          .running ⟨.Groups, some (ks.foldl (navStepSpec gs.length) i), f⟩ ∧
        ks.foldl (navStepSpec gs.length) i < gs.length := by
  intro ks
  induction ks with
  | nil =>
    intro i hi _
    refine ⟨?_, by simpa using hi⟩
    simp [run, renderOk_of_inbounds _ h hi]
  | cons k ks ih =>
    intro i hi hks
    have hk : k = Key.downK ∨ k = Key.upK := hks k (by simp)
    obtain ⟨hstep, hlt⟩ := nav_step .Groups h hi hk
    have hrest := ih (navStepSpec gs.length i k) hlt
      (fun k2 hk2 => hks k2 (by simp [hk2]))
    refine ⟨?_, by simpa [List.foldl_cons] using hrest.2⟩
    simp only [List.map_cons, run, renderOk_of_inbounds _ h hi, if_true, hstep,
      List.foldl_cons]
    exact hrest.1

/-! ### Claim theorems -/

/-- C1: for every store of length L ≥ 1 and every sequence of Up/Down
commands starting from an in-range selection, the selection stays in
`[0, L-1]` and wraps at both ends: `Down` maps `i` to `(i+1) mod L` and
`Up` maps `i` to `(i-1+L) mod L`. -/
theorem selection_bounds (f : FileData) (gs : List Group) (i : Nat) (ks : List Key)
    (h : read_db f = .ok gs) (hL : 1 ≤ gs.length) (hi : i < gs.length)
    (hks : ∀ k ∈ ks, k = Key.downK ∨ k = Key.upK) :
    (step (.input .downK) ⟨.Groups, some i, f⟩ =
        .next ⟨.Groups, some ((i + 1) % gs.length), f⟩) ∧
    (step (.input .upK) ⟨.Groups, some i, f⟩ =
        .next ⟨.Groups, some ((i + gs.length - 1) % gs.length), f⟩) ∧
    run ⟨.Groups, some i, f⟩ (ks.map .input) =
        .running ⟨.Groups, some (ks.foldl (navStepSpec gs.length) i), f⟩ ∧
    ks.foldl (navStepSpec gs.length) i < gs.length := by
  obtain ⟨hrun, hin⟩ := run_nav h ks i hi hks
  exact ⟨step_down .Groups h hi, step_up .Groups h hi, hrun, hin⟩

/-- Witness for C1 at L = 2, start 0, commands Down, Down, Up. -/
theorem selection_bounds_witness :
    read_db (write_db [gA, gB]) = Except.ok [gA, gB] ∧
    ((step (.input .downK) ⟨.Groups, some 0, write_db [gA, gB]⟩ =
        .next ⟨.Groups, some 1, write_db [gA, gB]⟩) ∧
     (step (.input .upK) ⟨.Groups, some 0, write_db [gA, gB]⟩ =
        .next ⟨.Groups, some 1, write_db [gA, gB]⟩) ∧
     run ⟨.Groups, some 0, write_db [gA, gB]⟩
         ([Key.downK, Key.downK, Key.upK].map Event.input) =
        .running ⟨.Groups, some 1, write_db [gA, gB]⟩ ∧
     [Key.downK, Key.downK, Key.upK].foldl (navStepSpec 2) 0 < 2) :=
  ⟨read_db_write_db _,
   selection_bounds (write_db [gA, gB]) [gA, gB] 0 [Key.downK, Key.downK, Key.upK]
     (read_db_write_db _) (by decide) (by decide) (by decide)⟩

/-- C2: when the store holds exactly one record and a selection exists,
the delete command leaves the state — file and selection — unchanged:
deletion is refused at the singleton floor. -/
theorem singleton_floor (t : MenuItem) (i : Nat) (f : FileData) (gs : List Group)
    (h : read_db f = .ok gs) (h1 : gs.length = 1) :
    step (.input .dK) ⟨t, some i, f⟩ = .next ⟨t, some i, f⟩ := by
  simp [step, remove_group_at_index, h, h1]

/-- Witness for C2: a one-record store, selection 0. -/
theorem singleton_floor_witness :
    read_db (write_db [gA]) = Except.ok [gA] ∧ ([gA] : List Group).length = 1 ∧
    step (.input .dK) ⟨.Home, some 0, write_db [gA]⟩ =
      .next ⟨.Home, some 0, write_db [gA]⟩ :=
  ⟨read_db_write_db _, by decide,
   singleton_floor .Home 0 (write_db [gA]) [gA] (read_db_write_db _) (by decide)⟩

/-- C3: a successful deletion at selected index `i` (store length > 1,
`i` in bounds) rewrites the file without the record at `i` and moves
the selection to `i-1` when `i ≠ 0`, leaving it at 0 when `i = 0`. -/
theorem delete_index_shift (t : MenuItem) (i : Nat) (f : FileData) (gs : List Group)
    (h : read_db f = .ok gs) (h1 : 1 < gs.length) (hi : i < gs.length) :
    step (.input .dK) ⟨t, some i, f⟩ =
      .next ⟨t, some (if i = 0 then 0 else i - 1), write_db (gs.eraseIdx i)⟩ := by
  simp only [step, remove_group_at_index, h]
  rw [if_neg (by omega), if_pos hi]
  by_cases h0 : i = 0
  · subst h0; simp
  · simp [h0]

/-- Witness for C3 at L = 5, selection 3 (moves to 2) and, separately
derivable, the `i = 0` branch of the `if` in the statement. -/
theorem delete_index_shift_witness :
    read_db (write_db [gA, gB, gA, gB, gA]) = Except.ok [gA, gB, gA, gB, gA] ∧
    1 < ([gA, gB, gA, gB, gA] : List Group).length ∧ 3 < 5 ∧
    step (.input .dK) ⟨.Groups, some 3, write_db [gA, gB, gA, gB, gA]⟩ =
      .next ⟨.Groups, some 2, write_db ([gA, gB, gA, gB, gA].eraseIdx 3)⟩ :=
  ⟨read_db_write_db _, by decide, by decide,
   delete_index_shift .Groups 3 (write_db [gA, gB, gA, gB, gA]) [gA, gB, gA, gB, gA]
     (read_db_write_db _) (by decide) (by decide)⟩

/-- C4: a successful add appends the generated record: the length grows
by exactly 1, every pre-existing record keeps its index and value, and
tab and selection are untouched. -/
theorem append_monotonic (t : MenuItem) (sel : Option Nat) (f : FileData)
    (gs : List Group) (r1 r2 : Nat) (h : read_db f = .ok gs) :
    step (.input (.aK r1 r2)) ⟨t, sel, f⟩ =
        .next ⟨t, sel, write_db (gs ++ [mkRandomGroup r1 r2])⟩ ∧
    (gs ++ [mkRandomGroup r1 r2]).length = gs.length + 1 ∧
    ∀ n, n < gs.length → (gs ++ [mkRandomGroup r1 r2])[n]? = gs[n]? := by
  refine ⟨?_, by simp, fun n hn => List.getElem?_append_left hn⟩
  simp [step, add_random_group_to_db, h]

/-- Witness for C4 on a two-record store with draws 4 and 7. -/
theorem append_monotonic_witness :
    read_db (write_db [gA, gB]) = Except.ok [gA, gB] ∧
    (step (.input (.aK 4 7)) ⟨.Home, some 1, write_db [gA, gB]⟩ =
        .next ⟨.Home, some 1, write_db ([gA, gB] ++ [mkRandomGroup 4 7])⟩ ∧
     ([gA, gB] ++ [mkRandomGroup 4 7]).length = ([gA, gB] : List Group).length + 1 ∧
     ∀ n, n < ([gA, gB] : List Group).length →
       ([gA, gB] ++ [mkRandomGroup 4 7])[n]? = ([gA, gB] : List Group)[n]?) :=
  ⟨read_db_write_db _,
   append_monotonic .Home (some 1) (write_db [gA, gB]) [gA, gB] 4 7 (read_db_write_db _)⟩

/-- C5: saving any sequence of records and loading it back yields an
equal sequence, field for field. -/
theorem save_load_round_trip (gs : List Group) :
    read_db (write_db gs) = Except.ok gs :=
  read_db_write_db gs

/-- A leading tick draws the same state once more and changes nothing:
the loop result is that of the remaining events. -/
theorem run_tick (s : AppState) (es : List Event) :
    run s (.tick :: es) = run s es := by
  by_cases h : renderOk s
  · cases es <;> simp [run, step, h]
  · cases es <;> simp [run, h]

/-- C9: ticks are state-inert — running any event sequence gives
exactly the same result (final store file, selection, tab, or the same
panic/quit) as running it with every tick removed, so any interleaving
of ticks into a command sequence is equivalent to the bare sequence. -/
theorem tick_independence (s : AppState) (es : List Event) :
    run s es = run s (dropTicks es) := by
  induction es generalizing s with
  | nil => rfl
  | cons e es ih =>
    cases e with
    | tick =>
      rw [run_tick]
      have hd : dropTicks (.tick :: es) = dropTicks es := by simp [dropTicks]
      rw [hd, ih]
    | input k =>
      have hd : dropTicks (.input k :: es) = .input k :: dropTicks es := by
        simp [dropTicks]
      rw [hd]
      by_cases h : renderOk s
      · simp only [run, h, if_true]
        cases hstep : step (.input k) s with
        | next s2 => exact ih s2
        | quit s2 => rfl
        | panicked => rfl
      · simp [run, h]

/-- C10: with no selected row, the delete command and both navigation
commands succeed as no-ops: the store file is untouched and the
selection stays `None`. -/
theorem none_selection_noop (t : MenuItem) (f : FileData) (k : Key)
    (hk : k = Key.dK ∨ k = Key.upK ∨ k = Key.downK) :
    step (.input k) ⟨t, none, f⟩ = .next ⟨t, none, f⟩ := by
  rcases hk with rfl | rfl | rfl <;> rfl

/-- Witness for C10: delete with no selection on an unparseable file. -/
theorem none_selection_noop_witness :
    (Key.dK = Key.dK ∨ Key.dK = Key.upK ∨ Key.dK = Key.downK) ∧
    step (.input .dK) ⟨.Groups, none, .notJson⟩ = .next ⟨.Groups, none, .notJson⟩ :=
  ⟨Or.inl rfl, none_selection_noop .Groups .notJson .dK (Or.inl rfl)⟩

/-- Counterexample to C8: the handlers never consult the active tab.
On the Home tab with selection 0 over a two-record store, `Down` moves
the selection to 1, and `d` at selection 1 rewrites the store — both
contrary to "in any other tab these keys change neither the store nor
the selection". -/
theorem row_commands_home_tab_counterexample :
    step (.input .downK) ⟨.Home, some 0, write_db [gA, gB]⟩ =
        .next ⟨.Home, some 1, write_db [gA, gB]⟩ ∧
    step (.input .dK) ⟨.Home, some 1, write_db [gA, gB]⟩ =
        .next ⟨.Home, some 0, write_db [gA]⟩ ∧
    (1 : Nat) ≠ 0 :=
  ⟨rfl, rfl, by decide⟩

/-- C8 as amended: `d`, `Up` and `Down` behave identically in every
tab — their effect is the one they have on the Groups tab, with the
current tab carried through unchanged; the only guard is that a
selection exists. -/
theorem row_commands_ignore_tab (k : Key)
    (hk : k = Key.dK ∨ k = Key.upK ∨ k = Key.downK)
    (t : MenuItem) (sel : Option Nat) (f : FileData) :
    step (.input k) ⟨t, sel, f⟩ = retab t (step (.input k) ⟨.Groups, sel, f⟩) := by
  rcases hk with rfl | rfl | rfl
  · simp only [step]
    cases remove_group_at_index sel f <;> rfl
  · cases sel with
    | none => rfl
    | some i =>
      simp only [step]
      cases hr : read_db f with
      | error e => rfl
      | ok gs =>
        by_cases h0 : i > 0
        · simp [h0, retab]
        · by_cases hL : gs.length = 0
          · simp [h0, hL, retab]
          · simp [h0, hL, retab]
  · cases sel with
    | none => rfl
    | some i =>
      simp only [step]
      cases hr : read_db f with
      | error e => rfl
      | ok gs =>
        by_cases hL : gs.length = 0
        · simp [hL, retab]
        · by_cases h1 : i ≥ gs.length - 1
          · simp [hL, h1, retab]
          · simp [hL, h1, retab]

/-- Witness for the amended C8: `d` on the Editing tab equals the
Groups-tab effect with the tab carried through. -/
theorem row_commands_ignore_tab_witness :
    (Key.dK = Key.dK ∨ Key.dK = Key.upK ∨ Key.dK = Key.downK) ∧
    step (.input .dK) ⟨.Editing, some 0, write_db [gA, gB]⟩ =
      retab .Editing (step (.input .dK) ⟨.Groups, some 0, write_db [gA, gB]⟩) :=
  ⟨Or.inl rfl,
   row_commands_ignore_tab .dK (Or.inl rfl) .Editing (some 0) (write_db [gA, gB])⟩

/-- Counterexample to C6: `main` performs no load before its loop.
With a store file that is not valid JSON, the loop starts, draws the
Home tab, and processes an `h` key without any failure — the
interactive loop does run. -/
theorem fatal_load_counterexample :
    run (initState .notJson) [.input .hK] = .running ⟨.Home, some 0, .notJson⟩ :=
  rfl

/-- Any sequence of benign events (Home/Editing tab switches, unhandled
keys, ticks) keeps the loop alive with the unparseable file untouched,
starting from any Home/Editing state. -/
theorem benign_run : ∀ (es : List Event) (t : MenuItem) (sel : Option Nat),
    (t = .Home ∨ t = .Editing) → es.all benign = true →
    runningNotJson (run ⟨t, sel, .notJson⟩ es) = true := by
  intro es
  induction es with
  | nil =>
    intro t sel ht _
    rcases ht with rfl | rfl <;> rfl
  | cons e es ih =>
    intro t sel ht hb
    rw [List.all_cons, Bool.and_eq_true] at hb
    obtain ⟨hbe, hbes⟩ := hb
    have hren : renderOk ⟨t, sel, .notJson⟩ = true := by
      rcases ht with rfl | rfl <;> rfl
    cases e with
    | tick =>
      rw [run_tick]
      exact ih t sel ht hbes
    | input k =>
      cases k with
      | hK =>
        simp only [run, hren, if_true, step]
        exact ih .Home sel (Or.inl rfl) hbes
      | eK =>
        simp only [run, hren, if_true, step]
        exact ih .Editing sel (Or.inr rfl) hbes
      | otherK =>
        simp only [run, hren, if_true, step]
        exact ih t sel ht hbes
      | qK => simp [benign] at hbe
      | gK => simp [benign] at hbe
      | aK r1 r2 => simp [benign] at hbe
      | dK => simp [benign] at hbe
      | downK => simp [benign] at hbe
      | upK => simp [benign] at hbe

/-- C6 as amended: there is no initial load — with an unparseable
store file the loop starts at Home with selection `Some 0` and survives
every benign event sequence with the file untouched; the process dies
only at the first store-touching operation (`d`, `a`, or drawing the
Groups tab after `g`), by panic. -/
theorem no_initial_load (es : List Event) (h : es.all benign = true) :
    runningNotJson (run (initState .notJson) es) = true ∧
    run (initState .notJson) [.input .dK] = .panicked ∧
    run (initState .notJson) [.input (.aK 0 0)] = .panicked ∧
    run (initState .notJson) [.input .gK] = .panicked :=
  ⟨benign_run es .Home (some 0) (Or.inl rfl) h, rfl, rfl, rfl⟩

/-- Witness for the amended C6 on the sequence `e`, `Tick`. -/
theorem no_initial_load_witness :
    ([Event.input Key.eK, Event.tick].all benign = true) ∧
    (runningNotJson (run (initState .notJson) [Event.input Key.eK, Event.tick]) = true ∧
     run (initState .notJson) [.input .dK] = .panicked ∧
     run (initState .notJson) [.input (.aK 0 0)] = .panicked ∧
     run (initState .notJson) [.input .gK] = .panicked) :=
  ⟨by decide, no_initial_load [Event.input Key.eK, Event.tick] (by decide)⟩

/-- Counterexample to C7: an out-of-bounds index against a two-record
store makes `remove_group_at_index` panic (`Vec::remove`), rather than
fail with an `IndexError` — indeed the program's `Error` type has no
such variant. -/
theorem remove_out_of_bounds_counterexample :
    remove_group_at_index (some 5) (write_db [gA, gB]) = .panicked :=
  rfl

/-- C7 as amended: whenever the freshly loaded sequence does not have
exactly one record and the selected index is out of bounds for it,
`remove_group_at_index` panics; no error value is returned. -/
theorem remove_out_of_bounds (i : Nat) (f : FileData) (gs : List Group)
    (h : read_db f = .ok gs) (h1 : gs.length ≠ 1) (hi : gs.length ≤ i) :
    remove_group_at_index (some i) f = .panicked := by
  simp only [remove_group_at_index, h]
  rw [if_neg h1, if_neg (by omega)]

/-- Witness for the amended C7 at index 5 against a two-record store. -/
theorem remove_out_of_bounds_witness :
    read_db (write_db [gA, gB]) = Except.ok [gA, gB] ∧
    ([gA, gB] : List Group).length ≠ 1 ∧ ([gA, gB] : List Group).length ≤ 5 ∧
    remove_group_at_index (some 5) (write_db [gA, gB]) = .panicked :=
  ⟨read_db_write_db _, by decide, by decide,
   remove_out_of_bounds 5 (write_db [gA, gB]) [gA, gB] (read_db_write_db _)
     (by decide) (by decide)⟩

end SAGrading
